import Mathlib

/-!
Verification of the geometric reasoning core of the circledetect repository
(src/image_processing.py, function calculate_circle_center_height).

Modelling conventions (shallow embedding):
  - Pixel coordinates of detected line segments are integers (rows of the
    cv2.HoughLinesP output array, dtype int32); detected circles are modelled
    after the source applies np.uint16(np.around(circles)), so their fields
    are natural numbers below 2^16.
  - Real (float64) arithmetic of the source is modelled by exact rational
    arithmetic; the transcendental angle computation np.arctan2 composed with
    np.degrees is modelled by the exact real-valued atan2 function.
  - The OpenCV detection primitives (imread, Canny, HoughLinesP, HoughCircles)
    are opaque to the repository code; their outputs on the resized image are
    the inputs of the embedded pipeline, bundled in the RawImage structure.
    A RawImage value stands for a decodable input image; the value none stands
    for an undecodable one (cv2.imread returning None).
  - The annotated output image is modelled by its pixel dimensions
    (height, width): the drawing calls of the source do not change them.
  - The subtraction on line 182 of the source mixes a Python int (the vertex
    y, bounded by the processed image height, hence below 2^16) with a numpy
    uint16 scalar (the circle center y); numpy promotes this to uint16
    arithmetic, which is subtraction modulo 2^16. The model np_u16_sub
    reproduces that modular behaviour.
-/

namespace CircleDetect

/-- A detected line segment (x1, y1, x2, y2) in pixel space, one row of the
cv2.HoughLinesP output (source lines 41 to 46). -/
structure Segment where
  x1 : ℤ
  y1 : ℤ
  x2 : ℤ
  y2 : ℤ
deriving DecidableEq, Repr

/-- A detected circle candidate after the source rounds and casts the
cv2.HoughCircles output with np.uint16(np.around(circles)) (source line 149):
center (x, y) and radius r, natural numbers. -/
structure Circle where
  x : ℕ
  y : ℕ
  r : ℕ
deriving DecidableEq, Repr

/-- Outputs of the two Hough detectors on the resized image; either detector
returns None (modelled as none) when it finds no candidates. -/
structure DetectorOutput where
  lines : Option (List Segment)
  circles : Option (List Circle)

/-- A decodable input image: its original pixel dimensions together with what
the opaque detection primitives return on the resized image. -/
structure RawImage where
  h : ℕ
  w : ℕ
  det : DetectorOutput

/-- Source line 25: the processing size cap. -/
def max_process_dim : ℕ := 800

/-- Source lines 26 to 29: if the larger dimension exceeds 800, rescale both
dimensions by 800 / max(h, w) and truncate to integers (the float scale
arithmetic of the source is modelled exactly; natural division is the floor).
Returns the processed (height, width). -/
def resize_dims (h w : ℕ) : ℕ × ℕ :=
  if max_process_dim < max h w then
    (h * max_process_dim / max h w, w * max_process_dim / max h w)
  else (h, w)

/-- The exact real atan2 function: np.arctan2 y x is the angle in radians of
the vector (x, y), in the interval from -pi (exclusive) to pi (inclusive),
with atan2 0 0 = 0. -/
noncomputable def arctan2 (y x : ℝ) : ℝ :=
  if 0 < x then Real.arctan (y / x)
  else if x < 0 ∧ 0 ≤ y then Real.arctan (y / x) + Real.pi
  else if x < 0 ∧ y < 0 then Real.arctan (y / x) - Real.pi
  else if x = 0 ∧ 0 < y then Real.pi / 2
  else if x = 0 ∧ y < 0 then -(Real.pi / 2)
  else 0

/-- Source lines 48 to 49: the segment angle in degrees,
np.degrees(np.arctan2(y2 - y1, x2 - x1)). -/
noncomputable def angle_deg (s : Segment) : ℝ :=
  arctan2 ((s.y2 : ℝ) - (s.y1 : ℝ)) ((s.x2 : ℝ) - (s.x1 : ℝ)) * 180 / Real.pi

/-- Source lines 63 to 65: a segment is kept as a V-face candidate when the
absolute value of its angle in degrees lies strictly between 30 and 85 or
strictly between 95 and 150. -/
noncomputable def v_line_ok (s : Segment) : Prop :=
  (30 < |angle_deg s| ∧ |angle_deg s| < 85) ∨
    (95 < |angle_deg s| ∧ |angle_deg s| < 150)

/-- Boolean form of the angle-band filter, used to build the v_lines list. -/
noncomputable def v_line_okb (s : Segment) : Bool :=
  @decide (v_line_ok s) (Classical.propDecidable _)

/-- Source lines 43 to 66: the retained V-face candidate segments, in
detection order. -/
noncomputable def v_lines (segs : List Segment) : List Segment :=
  segs.filter v_line_okb

/-- The slope of a segment as in the source, (y2 - y1) / (x2 - x1), exact. -/
def slope (s : Segment) : ℚ :=
  ((s.y2 - s.y1 : ℤ) : ℚ) / ((s.x2 - s.x1 : ℤ) : ℚ)

/-- Source lines 77 to 113: the intersection of the infinite-line extensions
of two segments. Both runs zero: skipped. Exactly one run zero: solved with
the slope form of the other segment at the x of the vertical one. Otherwise
slope-intercept intersection, skipped when the slopes differ by less than
1/10 (the source literal 0.1; the inner checks for an infinite slope on
source lines 95 to 96 and 100 to 101 are unreachable in their branches and
have no counterpart here). -/
def intersect (l1 l2 : Segment) : Option (ℚ × ℚ) :=
  let denom1 : ℚ := ((l1.x2 - l1.x1 : ℤ) : ℚ)
  let denom2 : ℚ := ((l2.x2 - l2.x1 : ℤ) : ℚ)
  if denom1 = 0 ∧ denom2 = 0 then none
  else if denom1 = 0 then
    let m2 : ℚ := ((l2.y2 - l2.y1 : ℤ) : ℚ) / denom2
    some ((l1.x1 : ℚ), m2 * ((l1.x1 : ℚ) - (l2.x1 : ℚ)) + (l2.y1 : ℚ))
  else if denom2 = 0 then
    let m1 : ℚ := ((l1.y2 - l1.y1 : ℤ) : ℚ) / denom1
    some ((l2.x1 : ℚ), m1 * ((l2.x1 : ℚ) - (l1.x1 : ℚ)) + (l1.y1 : ℚ))
  else
    let m1 : ℚ := ((l1.y2 - l1.y1 : ℤ) : ℚ) / denom1
    let c1 : ℚ := (l1.y1 : ℚ) - m1 * (l1.x1 : ℚ)
    let m2 : ℚ := ((l2.y2 - l2.y1 : ℤ) : ℚ) / denom2
    let c2 : ℚ := (l2.y1 : ℚ) - m2 * (l2.x1 : ℚ)
    if |m1 - m2| < 1 / 10 then none
    else
      some ((c2 - c1) / (m1 - m2), m1 * ((c2 - c1) / (m1 - m2)) + c1)

/-- A segment with two distinct endpoints, hence an actual direction. -/
def nondegenerate (s : Segment) : Prop :=
  ¬(s.x1 = s.x2 ∧ s.y1 = s.y2)

instance (s : Segment) : Decidable (nondegenerate s) := by
  unfold nondegenerate; infer_instance

/-- Two nondegenerate segments with exactly parallel directions: the cross
product of their direction vectors vanishes. -/
def exactly_parallel (l1 l2 : Segment) : Prop :=
  nondegenerate l1 ∧ nondegenerate l2 ∧
    (l1.x2 - l1.x1) * (l2.y2 - l2.y1) = (l2.x2 - l2.x1) * (l1.y2 - l1.y1)

instance (l1 l2 : Segment) : Decidable (exactly_parallel l1 l2) := by
  unfold exactly_parallel; infer_instance

/-- Source lines 115 to 118: an intersection point is valid when it lies
strictly inside the image bounds and its y coordinate exceeds 0.4 of the
image height (0.4 is the exact rational 2/5). -/
def valid_point (hImg wImg : ℕ) (p : ℚ × ℚ) : Bool :=
  decide (0 ≤ p.1 ∧ p.1 < (wImg : ℚ) ∧ 0 ≤ p.2 ∧ p.2 < (hImg : ℚ) ∧
    (hImg : ℚ) * (2 / 5) < p.2)

/-- Python int() truncation toward zero on an exact rational. -/
def py_int (q : ℚ) : ℤ :=
  if 0 ≤ q then ⌊q⌋ else -⌊-q⌋

/-- All unordered pairs of list elements in the order of the two nested index
loops of source lines 72 to 75. -/
def all_pairs : List Segment → List (Segment × Segment)
  | [] => []
  | s :: rest => rest.map (fun t => (s, t)) ++ all_pairs rest

/-- Source lines 71 to 119: the list of valid pairwise intersection points,
truncated to integer pixel coordinates, in computation order. -/
def potential_intersections (hImg wImg : ℕ) (vls : List Segment) :
    List (ℤ × ℤ) :=
  (((all_pairs vls).filterMap fun pr => intersect pr.1 pr.2).filter
      fun p => valid_point hImg wImg p).map
    fun p => (py_int p.1, py_int p.2)

/-- One comparison step of the Python builtin min with key p.2: the current
best is replaced only when the next candidate is strictly lower in key, so
the first element attaining the minimum is kept. -/
def pick_lower (best q : ℤ × ℤ) : ℤ × ℤ :=
  if q.2 < best.2 then q else best

/-- The Python builtin min with key p.2 (source line 123): the first list
element attaining the minimal second component, none for the empty list. -/
def min_by_y : List (ℤ × ℤ) → Option (ℤ × ℤ)
  | [] => none
  | p :: ps => some (ps.foldl pick_lower p)

/-- Source lines 69 to 123: the fixture bottom vertex, computed only when at
least two candidate segments were retained. -/
def v_bottom_point (hImg wImg : ℕ) (vls : List Segment) : Option (ℤ × ℤ) :=
  if 2 ≤ vls.length then min_by_y (potential_intersections hImg wImg vls)
  else none

/-- Source line 166: a circle candidate is in the accepted vertical band when
0.3 * image height < center y < 0.7 * image height (exact rationals 3/10 and
7/10). -/
def in_band (hImg : ℕ) (c : Circle) : Prop :=
  (hImg : ℚ) * (3 / 10) < (c.y : ℚ) ∧ (c.y : ℚ) < (hImg : ℚ) * (7 / 10)

instance (hImg : ℕ) (c : Circle) : Decidable (in_band hImg c) := by
  unfold in_band; infer_instance

/-- One step of the selection loop of source lines 157 to 168: the candidate
replaces the current best exactly when it is in the band and its radius is
strictly larger than the running max_radius. -/
def pick_circle (hImg : ℕ) (acc : Option Circle × ℕ) (c : Circle) :
    Option Circle × ℕ :=
  if in_band hImg c ∧ acc.2 < c.r then (some c, c.r) else acc

/-- Source lines 147 to 171: scan the candidate list keeping the circle with
the largest radius among those in the vertical band; max_radius starts at 0
and a candidate replaces the current best only when its radius is strictly
larger. -/
def circle_center (hImg : ℕ) (cs : List Circle) : Option Circle :=
  (cs.foldl (pick_circle hImg) ((none : Option Circle), 0)).1

/-- Source line 182 under numpy promotion: a Python int below 2^16 minus a
uint16 scalar is computed in uint16, that is modulo 2^16. The result is kept
as an integer in the interval from 0 to 65535. -/
def np_u16_sub (a : ℤ) (b : ℕ) : ℤ :=
  (a - (b : ℤ)) % 65536

/-- Source lines 5 to 198: the full function. Input none models an
undecodable image (cv2.imread returning None, source lines 18 to 21). The
first component is the height (absent unless both a vertex and a circle were
established); the second is the annotated image, modelled by its processed
(height, width) dimensions. -/
noncomputable def calculate_circle_center_height (input : Option RawImage) :
    Option ℤ × Option (ℕ × ℕ) :=
  match input with
  | none => (none, none)
  | some img =>
      let dims := resize_dims img.h img.w
      let vls := v_lines (img.det.lines.getD [])
      let vbp := v_bottom_point dims.1 dims.2 vls
      let cc := circle_center dims.1 (img.det.circles.getD [])
      let height : Option ℤ :=
        match vbp, cc with
        | some v, some c => some (np_u16_sub v.2 c.y)
        | _, _ => none
      (height, some dims)

/-- A decodable input on which the resize stage of source lines 27 to 29
crashes: a resize is performed (larger dimension above 800) and at least one
computed target dimension truncates to zero. On such an input the source
passes a size with a zero dimension to cv2.resize, whose documented
precondition (a CV_Assert requiring a non-empty target size when no explicit
scale factors are given) fails, raising cv2.error. -/
def resize_degenerate (h w : ℕ) : Prop :=
  max_process_dim < max h w ∧
    ((resize_dims h w).1 = 0 ∨ (resize_dims h w).2 = 0)

instance (h w : ℕ) : Decidable (resize_degenerate h w) := by
  unfold resize_degenerate; infer_instance

/-- The full function including its crash behaviour: on a decodable input
whose resize target has a zero dimension the cv2.resize call raises and the
function returns nothing (Except.error, the cv2.error escaping the function,
which has no exception handler); on every other input it returns the value
of calculate_circle_center_height. The raise condition is the only exit of
the source not covered by the total model above. -/
noncomputable def calculate_circle_center_height_exc (input : Option RawImage) :
    Except Unit (Option ℤ × Option (ℕ × ℕ)) :=
  match input with
  | none => Except.ok (none, none)
  | some img =>
      if resize_degenerate img.h img.w then Except.error ()
      else Except.ok (calculate_circle_center_height (some img))

/-- The first probe segment of the C1 counterexample: direction (200, 200),
angle 45 degrees. -/
def seg_a : Segment := ⟨300, 250, 500, 450⟩

/-- The second probe segment of the C1 counterexample: direction (200, -200),
angle -45 degrees. -/
def seg_b : Segment := ⟨300, 450, 500, 250⟩

/-- The probe circle of the C1 counterexample, in the vertical band of an
800 pixel high image. -/
def circ_main : Circle := ⟨400, 500, 100⟩

/-- A decodable 800 by 800 probe image on which the detectors report the two
probe segments and the probe circle. -/
def img_bug : RawImage := ⟨800, 800, ⟨some [seg_a, seg_b], some [circ_main]⟩⟩

/-- A horizontal probe segment: angle 0 degrees, rejected by the band
filter. -/
def seg_h : Segment := ⟨0, 0, 10, 0⟩

/-! Helper lemmas about the folds and the pipeline plumbing. -/

theorem pick_lower_foldl_mem (l : List (ℤ × ℤ)) :
    ∀ b : ℤ × ℤ, l.foldl pick_lower b ∈ b :: l := by
  induction l with
  | nil => intro b; simp
  | cons a t ih =>
    intro b
    rw [List.foldl_cons]
    rcases List.mem_cons.mp (ih (pick_lower b a)) with h1 | h2
    · rw [h1]
      unfold pick_lower
      split
      · exact List.mem_cons_of_mem _ (List.mem_cons_self _ _)
      · exact List.mem_cons_self _ _
    · exact List.mem_cons_of_mem _ (List.mem_cons_of_mem _ h2)

theorem pick_lower_foldl_le (l : List (ℤ × ℤ)) :
    ∀ b : ℤ × ℤ, (l.foldl pick_lower b).2 ≤ b.2 ∧
      ∀ q ∈ l, (l.foldl pick_lower b).2 ≤ q.2 := by
  induction l with
  | nil => intro b; exact ⟨le_refl _, by simp⟩
  | cons a t ih =>
    intro b
    rw [List.foldl_cons]
    obtain ⟨h1, h2⟩ := ih (pick_lower b a)
    have hb : (pick_lower b a).2 ≤ b.2 ∧ (pick_lower b a).2 ≤ a.2 := by
      unfold pick_lower
      split
      next hlt => exact ⟨le_of_lt hlt, le_refl _⟩
      next hge => exact ⟨le_refl _, le_of_not_lt hge⟩
    refine ⟨le_trans h1 hb.1, ?_⟩
    intro q hq
    rcases List.mem_cons.mp hq with rfl | hq2
    · exact le_trans h1 hb.2
    · exact h2 q hq2

theorem min_by_y_spec (pts : List (ℤ × ℤ)) (h : pts ≠ []) :
    ∃ p, min_by_y pts = some p ∧ p ∈ pts ∧ ∀ q ∈ pts, p.2 ≤ q.2 := by
  match pts with
  | [] => exact absurd rfl h
  | p :: ps =>
    refine ⟨ps.foldl pick_lower p, rfl, pick_lower_foldl_mem ps p, ?_⟩
    intro q hq
    obtain ⟨h1, h2⟩ := pick_lower_foldl_le ps p
    rcases List.mem_cons.mp hq with rfl | hq2
    · exact h1
    · exact h2 q hq2

theorem potential_intersections_of_short (hImg wImg : ℕ) (vls : List Segment)
    (h : vls.length < 2) : potential_intersections hImg wImg vls = [] := by
  match vls with
  | [] => rfl
  | [a] => rfl
  | a :: b :: t => exact absurd h (by simp)

theorem pick_circle_foldl_le (hImg : ℕ) (l : List Circle) :
    ∀ acc, acc.2 ≤ (l.foldl (pick_circle hImg) acc).2 := by
  induction l with
  | nil => intro acc; exact le_refl _
  | cons a t ih =>
    intro acc
    rw [List.foldl_cons]
    refine le_trans ?_ (ih (pick_circle hImg acc a))
    unfold pick_circle
    split
    next hc => exact le_of_lt hc.2
    next => exact le_refl _

theorem pick_circle_foldl_bound (hImg : ℕ) (l : List Circle) :
    ∀ acc, ∀ c ∈ l, in_band hImg c → c.r ≤ (l.foldl (pick_circle hImg) acc).2 := by
  induction l with
  | nil => intro acc c hc; simp at hc
  | cons a t ih =>
    intro acc c hc hband
    rw [List.foldl_cons]
    rcases List.mem_cons.mp hc with rfl | hc2
    · by_cases hstep : in_band hImg c ∧ acc.2 < c.r
      · have he : (pick_circle hImg acc c).2 = c.r := by
          unfold pick_circle; rw [if_pos hstep]
        calc c.r = (pick_circle hImg acc c).2 := he.symm
          _ ≤ _ := pick_circle_foldl_le hImg t _
      · have hle : c.r ≤ acc.2 := by
          rcases not_and_or.mp hstep with h1 | h2
          · exact absurd hband h1
          · exact le_of_not_lt h2
        have he : pick_circle hImg acc c = acc := by
          unfold pick_circle; rw [if_neg hstep]
        calc c.r ≤ acc.2 := hle
          _ = (pick_circle hImg acc c).2 := by rw [he]
          _ ≤ _ := pick_circle_foldl_le hImg t _
    · exact ih (pick_circle hImg acc a) c hc2 hband

theorem pick_circle_foldl_good (hImg : ℕ) (cs0 : List Circle) (l : List Circle) :
    ∀ acc, (∀ c ∈ l, c ∈ cs0) →
      (acc = ((none : Option Circle), 0) ∨
        ∃ c, acc = (some c, c.r) ∧ c ∈ cs0 ∧ in_band hImg c) →
      (l.foldl (pick_circle hImg) acc = ((none : Option Circle), 0) ∨
        ∃ c, l.foldl (pick_circle hImg) acc = (some c, c.r) ∧ c ∈ cs0 ∧
          in_band hImg c) := by
  induction l with
  | nil => intro acc _ hg; exact hg
  | cons a t ih =>
    intro acc hsub hg
    rw [List.foldl_cons]
    apply ih
    · intro c hc; exact hsub c (List.mem_cons_of_mem _ hc)
    · unfold pick_circle
      split
      next hstep =>
        exact Or.inr ⟨a, rfl, hsub a (List.mem_cons_self _ _), hstep.1⟩
      next => exact hg

theorem pick_circle_foldl_id (hImg : ℕ) (l : List Circle) :
    ∀ acc, (∀ c ∈ l, ¬ in_band hImg c) → l.foldl (pick_circle hImg) acc = acc := by
  induction l with
  | nil => intro acc _; rfl
  | cons a t ih =>
    intro acc hno
    rw [List.foldl_cons]
    have ha : pick_circle hImg acc a = acc := by
      unfold pick_circle
      rw [if_neg]
      intro hc
      exact hno a (List.mem_cons_self _ _) hc.1
    rw [ha]
    exact ih acc fun c hc => hno c (List.mem_cons_of_mem _ hc)

theorem pick_circle_foldl_some (hImg : ℕ) (l : List Circle) :
    ∀ acc : Option Circle × ℕ, acc.1.isSome = true →
      (l.foldl (pick_circle hImg) acc).1.isSome = true := by
  induction l with
  | nil => intro acc h; exact h
  | cons a t ih =>
    intro acc h
    rw [List.foldl_cons]
    apply ih
    unfold pick_circle
    split
    · rfl
    · exact h

theorem pick_circle_foldl_found (hImg : ℕ) (l : List Circle) :
    ∀ acc : Option Circle × ℕ,
      (∃ c ∈ l, in_band hImg c ∧ acc.2 < c.r) ∨ acc.1.isSome = true →
      (l.foldl (pick_circle hImg) acc).1.isSome = true := by
  induction l with
  | nil =>
    intro acc h
    rcases h with ⟨c, hc, _⟩ | h2
    · simp at hc
    · exact h2
  | cons a t ih =>
    intro acc h
    rw [List.foldl_cons]
    by_cases hstep : in_band hImg a ∧ acc.2 < a.r
    · apply pick_circle_foldl_some
      unfold pick_circle
      rw [if_pos hstep]
      rfl
    · have hacc : pick_circle hImg acc a = acc := by
        unfold pick_circle; rw [if_neg hstep]
      rw [hacc]
      apply ih
      rcases h with ⟨c, hc, hband, hr⟩ | h2
      · rcases List.mem_cons.mp hc with rfl | hc2
        · exact absurd ⟨hband, hr⟩ hstep
        · exact Or.inl ⟨c, hc2, hband, hr⟩
      · exact Or.inr h2

theorem resize_dims_le (h w : ℕ) :
    max (resize_dims h w).1 (resize_dims h w).2 ≤ max_process_dim := by
  unfold resize_dims
  split
  next hgt =>
    have hm : 0 < max h w := lt_trans (by norm_num [max_process_dim]) hgt
    have hcancel : max h w * max_process_dim / max h w = max_process_dim :=
      Nat.mul_div_cancel_left _ hm
    have hh : h * max_process_dim / max h w ≤ max_process_dim := by
      calc h * max_process_dim / max h w
          ≤ max h w * max_process_dim / max h w :=
            Nat.div_le_div_right (Nat.mul_le_mul_right _ (le_max_left h w))
        _ = max_process_dim := hcancel
    have hw : w * max_process_dim / max h w ≤ max_process_dim := by
      calc w * max_process_dim / max h w
          ≤ max h w * max_process_dim / max h w :=
            Nat.div_le_div_right (Nat.mul_le_mul_right _ (le_max_right h w))
        _ = max_process_dim := hcancel
    exact max_le hh hw
  next hle => exact le_of_not_lt hle

theorem calc_fst_eq (img : RawImage) :
    (calculate_circle_center_height (some img)).1 =
      match
        v_bottom_point (resize_dims img.h img.w).1 (resize_dims img.h img.w).2
          (v_lines (img.det.lines.getD [])),
        circle_center (resize_dims img.h img.w).1 (img.det.circles.getD []) with
      | some v, some c => some (np_u16_sub v.2 c.y)
      | _, _ => none := rfl

theorem calc_snd_eq (img : RawImage) :
    (calculate_circle_center_height (some img)).2 =
      some (resize_dims img.h img.w) := rfl

/-- Claim C4: for every unordered pair of retained segments, if both are
vertical (zero run) no intersection is produced; if exactly one is vertical
the intersection is solved with the slope form of the other segment at the
x of the vertical one; if both are non-vertical and the slopes differ by
less than the fixed epsilon 1/10 the pair is skipped as effectively
parallel; hence two exactly parallel segments never produce an intersection
and the slope difference divided by is never zero. -/
theorem c4_pairwise_intersection_safety (l1 l2 : Segment) :
    (l1.x2 - l1.x1 = 0 ∧ l2.x2 - l2.x1 = 0 → intersect l1 l2 = none) ∧
    (l1.x2 - l1.x1 = 0 ∧ l2.x2 - l2.x1 ≠ 0 →
      intersect l1 l2 =
        some ((l1.x1 : ℚ), slope l2 * ((l1.x1 : ℚ) - (l2.x1 : ℚ)) + (l2.y1 : ℚ))) ∧
    (l1.x2 - l1.x1 ≠ 0 ∧ l2.x2 - l2.x1 = 0 →
      intersect l1 l2 =
        some ((l2.x1 : ℚ), slope l1 * ((l2.x1 : ℚ) - (l1.x1 : ℚ)) + (l1.y1 : ℚ))) ∧
    (l1.x2 - l1.x1 ≠ 0 ∧ l2.x2 - l2.x1 ≠ 0 ∧ |slope l1 - slope l2| < 1 / 10 →
      intersect l1 l2 = none) ∧
    (l1.x2 - l1.x1 ≠ 0 ∧ l2.x2 - l2.x1 ≠ 0 ∧ ¬(|slope l1 - slope l2| < 1 / 10) →
      slope l1 - slope l2 ≠ 0) ∧
    (exactly_parallel l1 l2 → intersect l1 l2 = none) := by
  have hQz : ∀ a b : ℤ, a - b = 0 → ((a - b : ℤ) : ℚ) = 0 := by
    intro a b h; rw [h]; norm_num
  have hQn : ∀ a b : ℤ, a - b ≠ 0 → ((a - b : ℤ) : ℚ) ≠ 0 := by
    intro a b h; exact Int.cast_ne_zero.mpr h
  have hboth : l1.x2 - l1.x1 = 0 → l2.x2 - l2.x1 = 0 → intersect l1 l2 = none := by
    intro h1 h2
    unfold intersect
    rw [if_pos ⟨hQz _ _ h1, hQz _ _ h2⟩]
  have hone : l1.x2 - l1.x1 = 0 → l2.x2 - l2.x1 ≠ 0 →
      intersect l1 l2 =
        some ((l1.x1 : ℚ), slope l2 * ((l1.x1 : ℚ) - (l2.x1 : ℚ)) + (l2.y1 : ℚ)) := by
    intro h1 h2
    unfold intersect slope
    rw [if_neg (by rintro ⟨-, hc⟩; exact hQn _ _ h2 hc), if_pos (hQz _ _ h1)]
  have htwo : l1.x2 - l1.x1 ≠ 0 → l2.x2 - l2.x1 = 0 →
      intersect l1 l2 =
        some ((l2.x1 : ℚ), slope l1 * ((l2.x1 : ℚ) - (l1.x1 : ℚ)) + (l1.y1 : ℚ)) := by
    intro h1 h2
    unfold intersect slope
    rw [if_neg (by rintro ⟨hc, -⟩; exact hQn _ _ h1 hc),
      if_neg (hQn _ _ h1), if_pos (hQz _ _ h2)]
  have hskip : l1.x2 - l1.x1 ≠ 0 → l2.x2 - l2.x1 ≠ 0 →
      |slope l1 - slope l2| < 1 / 10 → intersect l1 l2 = none := by
    intro h1 h2 hlt
    unfold slope at hlt
    unfold intersect
    rw [if_neg (by rintro ⟨hc, -⟩; exact hQn _ _ h1 hc),
      if_neg (hQn _ _ h1), if_neg (hQn _ _ h2), if_pos hlt]
  refine ⟨fun h => hboth h.1 h.2, fun h => hone h.1 h.2, fun h => htwo h.1 h.2,
    fun h => hskip h.1 h.2.1 h.2.2, ?_, ?_⟩
  · rintro ⟨h1, h2, hge⟩ hzero
    exact hge (by rw [hzero]; norm_num)
  · rintro ⟨hnd1, hnd2, hpar⟩
    by_cases hd1 : l1.x2 - l1.x1 = 0 <;> by_cases hd2 : l2.x2 - l2.x1 = 0
    · exact hboth hd1 hd2
    · exfalso
      rw [hd1, zero_mul] at hpar
      rcases mul_eq_zero.mp hpar.symm with hz | hz
      · exact hd2 hz
      · exact hnd1 ⟨by omega, by omega⟩
    · exfalso
      rw [hd2, zero_mul] at hpar
      rcases mul_eq_zero.mp hpar with hz | hz
      · exact hd1 hz
      · exact hnd2 ⟨by omega, by omega⟩
    · apply hskip hd1 hd2
      have hz : ((l1.y2 - l1.y1 : ℤ) : ℚ) * ((l2.x2 - l2.x1 : ℤ) : ℚ) =
          ((l2.y2 - l2.y1 : ℤ) : ℚ) * ((l1.x2 - l1.x1 : ℤ) : ℚ) := by
        have hzz : (l1.y2 - l1.y1) * (l2.x2 - l2.x1) =
            (l2.y2 - l2.y1) * (l1.x2 - l1.x1) := by linear_combination -hpar
        exact_mod_cast hzz
      have heq : slope l1 = slope l2 := by
        unfold slope
        rw [div_eq_div_iff (Int.cast_ne_zero.mpr hd1) (Int.cast_ne_zero.mpr hd2)]
        exact hz
      rw [heq, sub_self]
      norm_num



/-- Claim C4 witness: two exactly parallel slanted segments and two vertical
segments produce no intersection; a vertical and a slanted segment produce
the solved point. -/
theorem c4_witness :
    intersect ⟨0, 0, 10, 10⟩ ⟨0, 5, 10, 15⟩ = none ∧
    intersect ⟨3, 0, 3, 10⟩ ⟨7, 0, 7, 10⟩ = none ∧
    intersect ⟨3, 0, 3, 12⟩ ⟨0, 0, 4, 8⟩ = some (3, 6) := by
  refine ⟨?_, ?_, ?_⟩
  · exact (c4_pairwise_intersection_safety ⟨0, 0, 10, 10⟩ ⟨0, 5, 10, 15⟩).2.2.2.2.2
      (by decide)
  · exact (c4_pairwise_intersection_safety ⟨3, 0, 3, 10⟩ ⟨7, 0, 7, 10⟩).1 (by decide)
  · have h := (c4_pairwise_intersection_safety ⟨3, 0, 3, 12⟩ ⟨0, 0, 4, 8⟩).2.1
      ⟨by decide, by decide⟩
    rw [h]
    norm_num [slope]

/-- Claim C5: a computed intersection point is retained exactly when its
coordinates lie strictly inside the image bounds (0 le x lt width and
0 le y lt height) and its y coordinate exceeds the fixed fraction 2/5 of the
image height; every point of the retained list arises from a pairwise
intersection that passed this filter, so all other intersections are
discarded. -/
theorem c5_intersection_validity (hImg wImg : ℕ) (p : ℚ × ℚ) (vls : List Segment) :
    (valid_point hImg wImg p = true ↔
      0 ≤ p.1 ∧ p.1 < (wImg : ℚ) ∧ 0 ≤ p.2 ∧ p.2 < (hImg : ℚ) ∧
        (hImg : ℚ) * (2 / 5) < p.2) ∧
    ∀ pt ∈ potential_intersections hImg wImg vls,
      ∃ q ∈ (all_pairs vls).filterMap (fun pr => intersect pr.1 pr.2),
        valid_point hImg wImg q = true ∧ pt = (py_int q.1, py_int q.2) := by
  constructor
  · simp [valid_point]
  · intro pt hpt
    simp only [potential_intersections, List.mem_map, List.mem_filter] at hpt
    obtain ⟨q, ⟨hq1, hq2⟩, rfl⟩ := hpt
    exact ⟨q, hq1, hq2, rfl⟩

/-- Claim C5 witness: the point (4, 12) passes the validity filter of a
20 by 20 image and is the retained truncation of the intersection of the
two probe segments. -/
theorem c5_witness :
    valid_point 20 20 (4, 12) = true ∧
    ∃ q ∈ (all_pairs [⟨0, 0, 2, 6⟩, ⟨8, 0, 6, 6⟩]).filterMap
        (fun pr => intersect pr.1 pr.2),
      valid_point 20 20 q = true ∧ ((4 : ℤ), (12 : ℤ)) = (py_int q.1, py_int q.2) := by
  constructor
  · exact (c5_intersection_validity 20 20 (4, 12) []).1.mpr (by norm_num)
  · exact (c5_intersection_validity 20 20 (0, 0) [⟨0, 0, 2, 6⟩, ⟨8, 0, 6, 6⟩]).2
      (4, 12)
      (by norm_num [potential_intersections, all_pairs, intersect, valid_point,
        py_int, List.filterMap_cons, List.filter_cons, List.map_cons])

/-- Claim C6: when the list of retained valid intersection points is empty
no vertex is selected, and when it is nonempty the selected fixture bottom
vertex is an element of the list whose y pixel coordinate is least. -/
theorem c6_vertex_selection (hImg wImg : ℕ) (vls : List Segment) :
    (potential_intersections hImg wImg vls = [] →
      v_bottom_point hImg wImg vls = none) ∧
    (potential_intersections hImg wImg vls ≠ [] →
      ∃ p, v_bottom_point hImg wImg vls = some p ∧
        p ∈ potential_intersections hImg wImg vls ∧
        ∀ q ∈ potential_intersections hImg wImg vls, p.2 ≤ q.2) := by
  constructor
  · intro h
    unfold v_bottom_point
    split
    · rw [h]; rfl
    · rfl
  · intro h
    have hlen : 2 ≤ vls.length := by
      by_contra hc
      exact h (potential_intersections_of_short hImg wImg vls (Nat.lt_of_not_le hc))
    unfold v_bottom_point
    rw [if_pos hlen]
    exact min_by_y_spec _ h

/-- Claim C6 witness: on two concrete crossing segments the vertex is the
minimal-y retained intersection. -/
theorem c6_witness :
    ∃ p, v_bottom_point 20 20 [⟨0, 0, 2, 6⟩, ⟨8, 0, 6, 6⟩] = some p ∧
      p ∈ potential_intersections 20 20 [⟨0, 0, 2, 6⟩, ⟨8, 0, 6, 6⟩] ∧
      ∀ q ∈ potential_intersections 20 20 [⟨0, 0, 2, 6⟩, ⟨8, 0, 6, 6⟩], p.2 ≤ q.2 := by
  refine (c6_vertex_selection 20 20 [⟨0, 0, 2, 6⟩, ⟨8, 0, 6, 6⟩]).2 ?_
  norm_num [potential_intersections, all_pairs, intersect, valid_point, py_int,
    List.filterMap_cons, List.filter_cons, List.map_cons]

/-- Claim C7: a selected circle always lies in the candidate list, has its
center y strictly inside the band from 3/10 to 7/10 of the image height, and
has radius at least that of every in-band candidate; when no candidate is in
the band none is selected; and when an in-band candidate of positive radius
exists (every detected candidate has positive radius, since the detector is
called with minRadius 80) a circle is selected. -/
theorem c7_circle_selection (hImg : ℕ) (cs : List Circle) :
    (∀ c, circle_center hImg cs = some c →
      c ∈ cs ∧ in_band hImg c ∧ ∀ d ∈ cs, in_band hImg d → d.r ≤ c.r) ∧
    ((∀ c ∈ cs, ¬ in_band hImg c) → circle_center hImg cs = none) ∧
    ((∃ c ∈ cs, in_band hImg c ∧ 0 < c.r) →
      (circle_center hImg cs).isSome = true) := by
  refine ⟨?_, ?_, ?_⟩
  · intro c hc
    have hg := pick_circle_foldl_good hImg cs cs ((none : Option Circle), 0)
      (fun d hd => hd) (Or.inl rfl)
    unfold circle_center at hc
    rcases hg with hg | ⟨d, hfold, hmem, hband⟩
    · rw [hg] at hc
      exact absurd hc (by simp)
    · rw [hfold] at hc
      have hcd : d = c := by exact Option.some.inj hc
      subst hcd
      refine ⟨hmem, hband, ?_⟩
      intro e he hbe
      have hb := pick_circle_foldl_bound hImg cs ((none : Option Circle), 0) e he hbe
      rw [hfold] at hb
      exact hb
  · intro hno
    unfold circle_center
    rw [pick_circle_foldl_id hImg cs _ hno]
  · rintro ⟨c, hc, hband, hr⟩
    unfold circle_center
    exact pick_circle_foldl_found hImg cs _ (Or.inl ⟨c, hc, hband, hr⟩)

/-- Claim C7 witness: with two candidates of which only the smaller one is
in the band, the in-band candidate is selected; a list whose only candidate
is out of band selects nothing. -/
theorem c7_witness :
    (⟨100, 300, 90⟩ : Circle) ∈ ([⟨100, 300, 90⟩, ⟨100, 100, 140⟩] : List Circle) ∧
    in_band 800 ⟨100, 300, 90⟩ ∧
    (∀ d ∈ ([⟨100, 300, 90⟩, ⟨100, 100, 140⟩] : List Circle),
      in_band 800 d → d.r ≤ (⟨100, 300, 90⟩ : Circle).r) ∧
    circle_center 800 [⟨100, 100, 140⟩] = none ∧
    (circle_center 800 [⟨100, 300, 90⟩, ⟨100, 100, 140⟩]).isSome = true := by
  have h1 := (c7_circle_selection 800 [⟨100, 300, 90⟩, ⟨100, 100, 140⟩]).1
    ⟨100, 300, 90⟩
    (by norm_num [circle_center, pick_circle, in_band, List.foldl_cons])
  have h2 := (c7_circle_selection 800 [⟨100, 100, 140⟩]).2.1
    (by norm_num [in_band])
  have h3 := (c7_circle_selection 800 [⟨100, 300, 90⟩, ⟨100, 100, 140⟩]).2.2
    ⟨⟨100, 300, 90⟩, by norm_num, by norm_num [in_band]⟩
  exact ⟨h1.1, h1.2.1, h1.2.2, h2, h3⟩



theorem deg_band_iff (t a b : ℝ) :
    (a < t * 180 / Real.pi ∧ t * 180 / Real.pi < b) ↔
      (a * Real.pi / 180 < t ∧ t < b * Real.pi / 180) := by
  rw [lt_div_iff₀ Real.pi_pos, div_lt_iff₀ Real.pi_pos]
  constructor
  · rintro ⟨h1, h2⟩
    exact ⟨by linarith, by linarith⟩
  · rintro ⟨h1, h2⟩
    exact ⟨by linarith, by linarith⟩

theorem abs_angle_deg (s : Segment) :
    |angle_deg s| =
      |arctan2 ((s.y2 : ℝ) - (s.y1 : ℝ)) ((s.x2 : ℝ) - (s.x1 : ℝ))| * 180 / Real.pi := by
  unfold angle_deg
  rw [abs_div, abs_mul, abs_of_pos Real.pi_pos]
  norm_num

/-- Claim C8: a detected segment is retained as a V-face candidate exactly
when the absolute value of its angle in degrees (atan2 of the coordinate
deltas) lies strictly in the open interval from 30 to 85 or strictly in the
open interval from 95 to 150; equivalently, in radians, strictly between
pi/6 and 17 pi/36 or strictly between 19 pi/36 and 5 pi/6; all other
segments are discarded by the v_lines filter. -/
theorem c8_angle_band_filter (s : Segment) :
    (v_line_okb s = true ↔
      |angle_deg s| ∈ Set.Ioo (30 : ℝ) 85 ∪ Set.Ioo (95 : ℝ) 150) ∧
    (∀ segs : List Segment, s ∈ v_lines segs ↔ s ∈ segs ∧ v_line_ok s) ∧
    (v_line_okb s = true ↔
      |arctan2 ((s.y2 : ℝ) - (s.y1 : ℝ)) ((s.x2 : ℝ) - (s.x1 : ℝ))| ∈
        Set.Ioo (Real.pi / 6) (17 * Real.pi / 36) ∪
          Set.Ioo (19 * Real.pi / 36) (5 * Real.pi / 6)) := by
  refine ⟨?_, ?_, ?_⟩
  · simp [v_line_okb, v_line_ok, Set.mem_union, Set.mem_Ioo]
  · intro segs
    simp [v_lines, List.mem_filter, v_line_okb]
  · have hok : v_line_okb s = true ↔ v_line_ok s := by simp [v_line_okb]
    rw [hok]
    unfold v_line_ok
    simp only [Set.mem_union, Set.mem_Ioo]
    rw [abs_angle_deg s, deg_band_iff, deg_band_iff]
    have e1 : (30 : ℝ) * Real.pi / 180 = Real.pi / 6 := by ring
    have e2 : (85 : ℝ) * Real.pi / 180 = 17 * Real.pi / 36 := by ring
    have e3 : (95 : ℝ) * Real.pi / 180 = 19 * Real.pi / 36 := by ring
    have e4 : (150 : ℝ) * Real.pi / 180 = 5 * Real.pi / 6 := by ring
    rw [e1, e2, e3, e4]

/-- Claim C3: the returned height is none whenever no fixture vertex or no
target circle was established; in particular a circle-free image (empty
detector output) yields an absent circle selection and absent height, and an
image none of whose segments passes the angle bands yields an absent vertex
and absent height. -/
theorem c3_absent_on_missing (img : RawImage) :
    ((v_bottom_point (resize_dims img.h img.w).1 (resize_dims img.h img.w).2
        (v_lines (img.det.lines.getD [])) = none ∨
      circle_center (resize_dims img.h img.w).1 (img.det.circles.getD []) = none) →
      (calculate_circle_center_height (some img)).1 = none) ∧
    (img.det.circles.getD [] = [] →
      circle_center (resize_dims img.h img.w).1 (img.det.circles.getD []) = none ∧
      (calculate_circle_center_height (some img)).1 = none) ∧
    ((∀ s ∈ img.det.lines.getD [], ¬ v_line_ok s) →
      v_bottom_point (resize_dims img.h img.w).1 (resize_dims img.h img.w).2
        (v_lines (img.det.lines.getD [])) = none ∧
      (calculate_circle_center_height (some img)).1 = none) := by
  have habs : (v_bottom_point (resize_dims img.h img.w).1 (resize_dims img.h img.w).2
        (v_lines (img.det.lines.getD [])) = none ∨
      circle_center (resize_dims img.h img.w).1 (img.det.circles.getD []) = none) →
      (calculate_circle_center_height (some img)).1 = none := by
    intro h
    rw [calc_fst_eq]
    rcases h with h | h
    · rw [h]
    · rw [h]
      cases v_bottom_point (resize_dims img.h img.w).1 (resize_dims img.h img.w).2
        (v_lines (img.det.lines.getD [])) <;> rfl
  refine ⟨habs, ?_, ?_⟩
  · intro h
    have hcc : circle_center (resize_dims img.h img.w).1 (img.det.circles.getD []) =
        none := by rw [h]; rfl
    exact ⟨hcc, habs (Or.inr hcc)⟩
  · intro h
    have hfil : v_lines (img.det.lines.getD []) = [] := by
      unfold v_lines
      rw [List.filter_eq_nil_iff]
      intro s hs
      simp only [v_line_okb, decide_eq_true_eq]
      exact h s hs
    have hvb : v_bottom_point (resize_dims img.h img.w).1 (resize_dims img.h img.w).2
        (v_lines (img.det.lines.getD [])) = none := by
      rw [hfil]
      rfl
    exact ⟨hvb, habs (Or.inl hvb)⟩



theorem angle_deg_seg_a : angle_deg seg_a = 45 := by
  have h : angle_deg seg_a = Real.arctan 1 * 180 / Real.pi := by
    simp only [seg_a, angle_deg, arctan2]
    norm_num
  rw [h, Real.arctan_one]
  field_simp
  ring

theorem angle_deg_seg_b : angle_deg seg_b = -45 := by
  have h : angle_deg seg_b = Real.arctan (-1) * 180 / Real.pi := by
    simp only [seg_b, angle_deg, arctan2]
    norm_num
  rw [h, show (-1 : ℝ) = -(1 : ℝ) by norm_num, Real.arctan_neg, Real.arctan_one]
  field_simp
  ring

theorem v_line_okb_seg_a : v_line_okb seg_a = true := by
  simp only [v_line_okb, decide_eq_true_eq, v_line_ok]
  left
  rw [angle_deg_seg_a, abs_of_pos (by norm_num)]
  norm_num

theorem v_line_okb_seg_b : v_line_okb seg_b = true := by
  simp only [v_line_okb, decide_eq_true_eq, v_line_ok]
  left
  rw [angle_deg_seg_b, abs_of_neg (by norm_num)]
  norm_num

/-- Claim C1: the code evaluated where a vertex at y = 350 and a circle
center at y = 500 are both established. The claim predicts the signed value
-150; the code computes in uint16 and returns 65386, a positive number, so
the sign convention of the claim fails on the code. -/
theorem c1_height_wraparound :
    v_bottom_point 800 800 (v_lines [seg_a, seg_b]) = some (400, 350) ∧
    circle_center 800 [circ_main] = some circ_main ∧
    calculate_circle_center_height (some img_bug) =
      (some 65386, some (800, 800)) ∧
    (350 : ℤ) - (500 : ℤ) = -150 ∧
    ¬((65386 : ℤ) < 0) ∧ (65386 : ℤ) ≠ (350 : ℤ) - (500 : ℤ) := by
  have hf : v_lines [seg_a, seg_b] = [seg_a, seg_b] := by
    simp [v_lines, List.filter_cons, v_line_okb_seg_a, v_line_okb_seg_b]
  have hvb : v_bottom_point 800 800 (v_lines [seg_a, seg_b]) = some (400, 350) := by
    rw [hf]
    norm_num [v_bottom_point, min_by_y, potential_intersections, all_pairs,
      intersect, valid_point, py_int, seg_a, seg_b,
      List.filterMap_cons, List.filter_cons, List.map_cons]
  have hcc : circle_center 800 [circ_main] = some circ_main := by
    norm_num [circle_center, pick_circle, in_band, circ_main, List.foldl_cons]
  refine ⟨hvb, hcc, ?_, by norm_num, by norm_num, by norm_num⟩
  have h1 : (calculate_circle_center_height (some img_bug)).1 =
      match v_bottom_point 800 800 (v_lines [seg_a, seg_b]),
        circle_center 800 [circ_main] with
      | some v, some c => some (np_u16_sub v.2 c.y)
      | _, _ => none := rfl
  have hfst : (calculate_circle_center_height (some img_bug)).1 = some 65386 := by
    rw [h1, hvb, hcc]
    decide
  have hsnd : (calculate_circle_center_height (some img_bug)).2 =
      some (800, 800) := rfl
  exact Prod.ext hfst hsnd

/-- Claim C2: at the degenerate failing input (a decodable image of height
2000 and width 1) the resize stage of the source computes a zero target
width, which it passes to cv2.resize. -/
theorem c2_zero_resize_target : resize_dims 2000 1 = (800, 0) := by decide

/-- Claim C9: the computation is a pure function of the input image and the
fixed constants; two invocations on the same image yield the identical
result and identical vertex and circle selections, with no hidden state
carried between invocations. -/
theorem c9_referentially_transparent (img1 img2 : RawImage) (h : img1 = img2) :
    calculate_circle_center_height (some img1) =
      calculate_circle_center_height (some img2) ∧
    v_bottom_point (resize_dims img1.h img1.w).1 (resize_dims img1.h img1.w).2
        (v_lines (img1.det.lines.getD [])) =
      v_bottom_point (resize_dims img2.h img2.w).1 (resize_dims img2.h img2.w).2
        (v_lines (img2.det.lines.getD [])) ∧
    circle_center (resize_dims img1.h img1.w).1 (img1.det.circles.getD []) =
      circle_center (resize_dims img2.h img2.w).1 (img2.det.circles.getD []) := by
  subst h
  exact ⟨rfl, rfl, rfl⟩

/-- Claim C9 witness: two invocations on a concrete image agree. -/
theorem c9_witness :
    calculate_circle_center_height (some ⟨800, 800, ⟨none, none⟩⟩) =
      calculate_circle_center_height (some ⟨800, 800, ⟨none, none⟩⟩) :=
  (c9_referentially_transparent ⟨800, 800, ⟨none, none⟩⟩ ⟨800, 800, ⟨none, none⟩⟩
    rfl).1

/-- Claim C10 counterexample: the decodable 801 by 1 probe image is
downscaled to the target dimensions (800, 0); the source passes the zero
width to cv2.resize, which raises, so this decodable input returns no
annotated image at all, against the claim that every decodable image
returns a non-None second component. -/
theorem c10_counterexample :
    resize_dims 801 1 = (800, 0) ∧
    calculate_circle_center_height_exc (some ⟨801, 1, ⟨none, none⟩⟩) =
      Except.error () := by
  constructor
  · decide
  · simp only [calculate_circle_center_height_exc]
    rw [if_pos (by decide : resize_degenerate 801 1)]

/-- Claim C10 as amended: the function returns (None, None) exactly when
the image cannot be decoded; a decodable image whose computed resize target
has a zero dimension raises instead of returning (recorded under C2); every
other decodable image returns a non-None annotated image, downscaled so its
larger dimension is at most 800 pixels, as the second component even when
the height component is None. -/
theorem c10_decode_split_amended :
    calculate_circle_center_height_exc none = Except.ok (none, none) ∧
    (∀ input : Option RawImage,
      calculate_circle_center_height_exc input = Except.ok (none, none) ↔
        input = none) ∧
    (∀ img : RawImage, resize_degenerate img.h img.w →
      calculate_circle_center_height_exc (some img) = Except.error ()) ∧
    ∀ img : RawImage, ¬ resize_degenerate img.h img.w →
      calculate_circle_center_height_exc (some img) =
        Except.ok (calculate_circle_center_height (some img)) ∧
      (calculate_circle_center_height (some img)).2 =
        some (resize_dims img.h img.w) ∧
      max (resize_dims img.h img.w).1 (resize_dims img.h img.w).2 ≤
        max_process_dim := by
  refine ⟨rfl, ?_, ?_, ?_⟩
  · intro input
    cases input with
    | none => simp [calculate_circle_center_height_exc]
    | some img =>
      simp only [calculate_circle_center_height_exc]
      split
      next hdeg => simp
      next hdeg =>
        simp only [Except.ok.injEq]
        constructor
        · intro h
          have h2 := calc_snd_eq img
          rw [h] at h2
          simp at h2
        · intro h
          simp at h
  · intro img hdeg
    simp only [calculate_circle_center_height_exc]
    rw [if_pos hdeg]
  · intro img hdeg
    refine ⟨?_, calc_snd_eq img, resize_dims_le img.h img.w⟩
    simp only [calculate_circle_center_height_exc]
    rw [if_neg hdeg]

/-- Claim C10 witness: the decodable 1000 by 600 probe image is not
degenerate; the function returns normally and the annotated image is
resized to 800 by 480, not none. -/
theorem c10_witness :
    calculate_circle_center_height_exc (some ⟨1000, 600, ⟨none, none⟩⟩) =
      Except.ok (calculate_circle_center_height (some ⟨1000, 600, ⟨none, none⟩⟩)) ∧
    (calculate_circle_center_height (some ⟨1000, 600, ⟨none, none⟩⟩)).2 =
      some (800, 480) := by
  have h := c10_decode_split_amended.2.2.2 ⟨1000, 600, ⟨none, none⟩⟩ (by decide)
  refine ⟨h.1, ?_⟩
  rw [h.2.1]
  exact congrArg some (by decide : resize_dims 1000 600 = (800, 480))

theorem not_v_line_ok_seg_h : ¬ v_line_ok seg_h := by
  have h : angle_deg seg_h = Real.arctan 0 * 180 / Real.pi := by
    simp only [seg_h, angle_deg, arctan2]
    norm_num
  rw [v_line_ok, h, Real.arctan_zero]
  norm_num

/-- Claim C3 witness: an image whose only detected segment is horizontal
(outside both angle bands) and whose circle detector returns an empty list. -/
theorem c3_witness :
    circle_center 800 ((⟨800, 800, ⟨some [seg_h], some []⟩⟩ : RawImage).det.circles.getD []) = none ∧
    v_bottom_point 800 800
      (v_lines ((⟨800, 800, ⟨some [seg_h], some []⟩⟩ : RawImage).det.lines.getD [])) = none ∧
    (calculate_circle_center_height (some ⟨800, 800, ⟨some [seg_h], some []⟩⟩)).1 = none := by
  have h2 := (c3_absent_on_missing ⟨800, 800, ⟨some [seg_h], some []⟩⟩).2.1 rfl
  have h3 := (c3_absent_on_missing ⟨800, 800, ⟨some [seg_h], some []⟩⟩).2.2
    (by intro s hs
        have : s = seg_h := by simpa using hs
        rw [this]
        exact not_v_line_ok_seg_h)
  have hd : resize_dims 800 800 = (800, 800) := by decide
  refine ⟨?_, ?_, h3.2⟩
  · have := h2.1
    rw [hd] at this
    exact this
  · have := h3.1
    rw [hd] at this
    exact this

end CircleDetect
